import Mathlib

/-!
Verification of the order-state engine of the PG meal-ordering backend.

The definitions below are a shallow embedding of the Python source:
* `helpers.py` — meal prices, total computation, `upsert_order_for_user`,
  `cancel_order_by_user_date`;
* `models.py` — the `Order` row;
* `test.py` — the breakfast/lunch and dinner cutoff decision logic;
* `routes.py` — the `/process` orchestrator.

Modelling conventions:
* machine values are `Nat`/`Int`; civil dates are year/month/day triples and
  times of day are seconds since midnight;
* Python dict fields that may be absent become `Option`; Python truthiness of
  such a field is the `truthy`/`strTruthy` functions;
* `datetime.fromisoformat(s).date()` is modelled for the `YYYY-MM-DD` format,
  the only format the repository produces, including month/day range and
  leap-year validation as in CPython;
* the SQLAlchemy store is a list of rows; `filter_by(...).first()` followed by
  in-place mutation and commit is `findAndUpdate` (mutate the first matching
  row, keep all others);
* code that raises returns `Except`; a caught exception is an `Option`;
* the external LLM call plus `json.loads` of its output (an external
  collaborator) is abstracted as an `LLMOutcome` input to the orchestrator:
  the call raised, the output failed to parse, or a parsed response.
-/

namespace PG

/-- Dict `MEAL_PRICES` from `helpers.py`: breakfast 40, lunch 70, dinner 40. -/
def MEAL_PRICES (m : String) : Nat :=
  if m = "breakfast" then 40
  else if m = "lunch" then 70
  else if m = "dinner" then 40
  else 0

/-- Python truthiness of an optional JSON integer field (`order_obj.get(k)`):
absent and `0` are falsy. -/
def truthy : Option Int → Bool
  | none => false
  | some n => decide (n ≠ 0)

/-- Python truthiness of an optional string (`None` and `""` are falsy). -/
def strTruthy : Option String → Bool
  | none => false
  | some s => decide (s ≠ "")

/-- A civil date, as produced by `datetime.fromisoformat(...).date()`. -/
structure PyDate where
  year : Nat
  month : Nat
  day : Nat
deriving DecidableEq, Repr

/-- Gregorian leap year, as in CPython's date validation. -/
def isLeap (y : Nat) : Bool :=
  (y % 4 == 0 && y % 100 != 0) || (y % 400 == 0)

/-- Days in a month, as in CPython's date validation. -/
def daysInMonth (y m : Nat) : Nat :=
  if m = 2 then (if isLeap y then 29 else 28)
  else if m = 4 ∨ m = 6 ∨ m = 9 ∨ m = 11 then 30
  else 31

/-- Decimal digits to a number. -/
def digitsToNat (l : List Char) : Nat :=
  l.foldl (fun a c => a * 10 + (c.toNat - 48)) 0

/-- Model of `datetime.fromisoformat(s).date()` on the `YYYY-MM-DD` strings the
repository exchanges: ten characters, digit/hyphen shape, month in `1..12`,
day in `1..daysInMonth`; anything else raises `ValueError` (here: `none`). -/
def fromisoformatDate (s : String) : Option PyDate :=
  match s.toList with
  | [y1, y2, y3, y4, h1, m1, m2, h2, d1, d2] =>
    if y1.isDigit && y2.isDigit && y3.isDigit && y4.isDigit &&
       (h1 == '-') && m1.isDigit && m2.isDigit && (h2 == '-') &&
       d1.isDigit && d2.isDigit then
      let y := digitsToNat [y1, y2, y3, y4]
      let m := digitsToNat [m1, m2]
      let d := digitsToNat [d1, d2]
      if 1 ≤ m ∧ m ≤ 12 ∧ 1 ≤ d ∧ d ≤ daysInMonth y m then
        some ⟨y, m, d⟩
      else none
    else none
  | _ => none

/-- Python `date + timedelta(days=1)` with month/year rollover. -/
def nextDay (d : PyDate) : PyDate :=
  if d.day < daysInMonth d.year d.month then ⟨d.year, d.month, d.day + 1⟩
  else if d.month < 12 then ⟨d.year, d.month + 1, 1⟩
  else ⟨d.year + 1, 1, 1⟩

/-- Zero-padded two-digit rendering. -/
def pad2 (n : Nat) : String :=
  if n < 10 then "0" ++ toString n else toString n

/-- Zero-padded four-digit rendering. -/
def pad4 (n : Nat) : String :=
  if n < 10 then "000" ++ toString n
  else if n < 100 then "00" ++ toString n
  else if n < 1000 then "0" ++ toString n
  else toString n

/-- Python `date.isoformat()`. -/
def PyDate.isoformat (d : PyDate) : String :=
  pad4 d.year ++ "-" ++ pad2 d.month ++ "-" ++ pad2 d.day

/-- A row of the `orders` table (`models.py`).  `id` and `created_at` are the
database-generated key and timestamp, modelled as numbers. -/
structure Order where
  id : Nat
  user_id : Nat
  order_date : PyDate
  breakfast : Bool
  lunch : Bool
  dinner : Bool
  total_amount : Nat
  remarks : Option String
  canceled : Bool
  created_at : Nat
deriving DecidableEq, Repr

/-- The `order_obj` dict handed to the upsert engine: a target date string and
three optional `1|0` meal fields. -/
structure OrderObj where
  date : Option String
  breakfast : Option Int
  lunch : Option Int
  dinner : Option Int
deriving DecidableEq, Repr

/-- Function `calculate_total_from_order_obj` from `helpers.py`: sum the price of every
truthy meal field of the request object. -/
def calculate_total_from_order_obj (o : OrderObj) : Nat :=
  (if truthy o.breakfast then MEAL_PRICES "breakfast" else 0) +
  (if truthy o.lunch then MEAL_PRICES "lunch" else 0) +
  (if truthy o.dinner then MEAL_PRICES "dinner" else 0)

/-- Predicate `filter_by(user_id=..., order_date=...)` of the rows of the upsert. -/
def matches_user_date (uid : Nat) (od : PyDate) (r : Order) : Bool :=
  r.user_id == uid && r.order_date == od

/-- Predicate `filter_by(user_id=..., order_date=..., canceled=False)` of the rows of
the cancellation. -/
def is_active_for (uid : Nat) (od : PyDate) (r : Order) : Bool :=
  r.user_id == uid && r.order_date == od && r.canceled == false

/-- Model of `query.filter_by(...).first()` followed by in-place mutation and commit:
mutate the first row satisfying `p` with `f`, keep every other row; `none`
when no row matches. -/
def findAndUpdate {α : Type} (p : α → Bool) (f : α → α) : List α → Option (α × List α)
  | [] => none
  | r :: rs =>
    if p r then some (f r, f r :: rs)
    else
      match findAndUpdate p f rs with
      | none => none
      | some (u, rs2) => some (u, r :: rs2)

/-- raised Python exceptions that escape the modelled code. -/
inductive PyErr
  | valueError
deriving DecidableEq, Repr

/-- The field assignment block of the existing-row branch of
`upsert_order_for_user`. -/
def updateOrderFields (b l d : Bool) (total : Nat) (r : Order) : Order :=
  { r with breakfast := b, lunch := l, dinner := d,
           total_amount := total, canceled := false }

/-- Function `upsert_order_for_user` from `helpers.py`.  `fid`/`ca` are the id and
timestamp the database would generate for a fresh row.  A missing or empty
date raises `ValueError`; an unparsable date raises from `fromisoformat`.
The three flags are `bool(order_obj.get(...))` — an absent field becomes
`False` — and the total is recomputed from the request object alone.  An
existing row for `(user, date)` (canceled or not) is mutated in place and its
`canceled` flag cleared; otherwise one new row is appended. -/
def upsert_order_for_user (fid ca uid : Nat) (o : OrderObj) (store : List Order) :
    Except PyErr (Order × List Order) :=
  match o.date with
  | none => .error .valueError
  | some ds =>
    if ds = "" then .error .valueError
    else
      match fromisoformatDate ds with
      | none => .error .valueError
      | some od =>
        let b := truthy o.breakfast
        let l := truthy o.lunch
        let d := truthy o.dinner
        let total := calculate_total_from_order_obj o
        match findAndUpdate (matches_user_date uid od) (updateOrderFields b l d total) store with
        | some (saved, s2) => .ok (saved, s2)
        | none =>
          let newO : Order :=
            ⟨fid, uid, od, b, l, d, total, none, false, ca⟩
          .ok (newO, store ++ [newO])

/-- Function `cancel_order_by_user_date` from `helpers.py`.  Any exception from
`fromisoformat` is caught and turned into `None`; a missing active row is
`None`; otherwise the first active row for `(user, date)` gets
`canceled = True`. -/
def cancel_order_by_user_date (uid : Nat) (ds : String) (store : List Order) :
    Option Order × List Order :=
  match fromisoformatDate ds with
  | none => (none, store)
  | some od =>
    match findAndUpdate (is_active_for uid od) (fun r => { r with canceled := true }) store with
    | none => (none, store)
    | some (u, s2) => (some u, s2)

/-- The price contribution of one stored meal flag (spec §3: `priceOf`). -/
def priceOf (m : String) (flag : Bool) : Nat :=
  if flag then MEAL_PRICES m else 0

/-- Spec §3 invariant on a stored row:
`total == priceOf(breakfast) + priceOf(lunch) + priceOf(dinner)`. -/
def orderInvariant (r : Order) : Prop :=
  r.total_amount =
    priceOf "breakfast" r.breakfast + priceOf "lunch" r.lunch + priceOf "dinner" r.dinner

instance (r : Order) : Decidable (orderInvariant r) := by
  unfold orderInvariant; infer_instance

/-! ## Cutoff decision logic (`test.py`) -/

/-- An instant of wall-clock time: the civil date of `now.date()` plus
`now.time()` in whole seconds since midnight. -/
structure NowInstant where
  date : PyDate
  timeSec : Nat
deriving DecidableEq, Repr

/-- The intent classification of `test.py`: `"tomorrow"` when the order date
is `now.date() + 1 day`, `"today"` when it is `now.date()`, otherwise the
empty intent (printed as "futures"). -/
inductive Intent
  | tomorrow
  | today
  | futures
deriving DecidableEq, Repr

/-- The date comparison chain of `test.py`. -/
def classify_intent (order_date : PyDate) (now : NowInstant) : Intent :=
  if order_date = nextDay now.date then .tomorrow
  else if order_date = now.date then .today
  else .futures

/-- Constant `breakfast_lunch_cutoff = datetime.time(21, 30)`, in seconds. -/
def breakfast_lunch_cutoff : Nat := 21 * 3600 + 30 * 60

/-- Constant `dinner_cutoff = datetime.time(12, 30)`, in seconds. -/
def dinner_cutoff : Nat := 12 * 3600 + 30 * 60

/-- The breakfast/lunch gate of `test.py`: the order is refused exactly when
`now.time() > breakfast_lunch_cutoff and intent == "tomorrow"`. -/
def breakfast_lunch_allowed (order_date : PyDate) (now : NowInstant) : Bool :=
  !(decide (now.timeSec > breakfast_lunch_cutoff) &&
    decide (classify_intent order_date now = Intent.tomorrow))

/-- The dinner gate of `test.py`: the order is refused exactly when
`now.time() > dinner_cutoff`; the target date is not consulted. -/
def dinner_allowed (order_date : PyDate) (now : NowInstant) : Bool :=
  !(decide (now.timeSec > dinner_cutoff))

/-! ## The `/process` orchestrator (`routes.py`) -/

/-- A row of the `users` table, as far as the orchestrator touches it. -/
structure UserRec where
  id : Nat
  whatsapp_id : String
  username : String
deriving DecidableEq, Repr

/-- Function `get_or_create_user` from `helpers.py`: find by whatsapp id and refresh
the display name when a truthy new one differs, else create with the given
name or `"Unknown"`. -/
def get_or_create_user (freshId : Nat) (users : List UserRec) (wid : String)
    (uname : Option String) : UserRec × List UserRec :=
  match findAndUpdate (fun u => u.whatsapp_id == wid)
      (fun u =>
        if strTruthy uname && !(u.username == uname.getD "") then
          { u with username := uname.getD "" }
        else u) users with
  | some (u, users2) => (u, users2)
  | none =>
    let u : UserRec :=
      ⟨freshId, wid, if strTruthy uname then uname.getD "" else "Unknown"⟩
    (u, users ++ [u])

/-- Read `chat_histories.get(key, ([], ...))`: the stored history lines of a
conversation key, empty when absent.  Timestamps only feed the eviction
sweep and are not modelled. -/
def getHistory : List (String × List String) → String → List String
  | [], _ => []
  | kv :: rest, k => if kv.fst = k then kv.snd else getHistory rest k

/-- Write `chat_histories[key] = (history, ...)`: dict assignment. -/
def setHistory : List (String × List String) → String → List String →
    List (String × List String)
  | [], k, h => [(k, h)]
  | kv :: rest, k, h =>
    if kv.fst = k then (k, h) :: rest else kv :: setHistory rest k h

/-- The JSON object `json.loads` yields for a well-formed LLM answer: the
fields `/process` reads from it. -/
structure ParsedResp where
  reply : Option String
  counter : Int
  order : Option OrderObj
  action : Option String
  date : Option String
deriving DecidableEq, Repr

/-- The outcome of the external LLM call plus `json.loads` on its cleaned
output, abstracted as an input of the orchestrator: the call raised, the
output was not JSON, or it parsed. -/
inductive LLMOutcome
  | failure
  | unparsable (raw : String)
  | parsed (p : ParsedResp)
deriving DecidableEq, Repr

/-- A JSON response of `/process`: either the `{"error": ...}` shape or the
`{"reply": ..., "counter": ...}` shape, with its HTTP status. -/
inductive ProcResp
  | errorResp (msg : String) (status : Nat)
  | reply (text : String) (counter : Int) (status : Nat)
deriving DecidableEq, Repr

/-- The mutable state `/process` touches: the `users` table, the `orders`
table and the session cache. -/
structure ProcState where
  users : List UserRec
  store : List Order
  sessions : List (String × List String)
deriving DecidableEq, Repr

/-- Defaulting `if not date_in: date_in = (utcnow().date() + 1 day).isoformat()`. -/
def default_date_in (nd : PyDate) (di : Option String) : String :=
  if strTruthy di then di.getD "" else PyDate.isoformat (nextDay nd)

/-- The shared tail of every `/process` path that reaches the end of the
handler: record the bot reply in the session history of `key` and answer. -/
def withBotReply (key replyOut : String) (counter : Int) (status : Nat)
    (users : List UserRec) (store : List Order)
    (sessions1 : List (String × List String)) : ProcResp × ProcState :=
  (.reply replyOut counter status,
   ⟨users, store,
    setHistory sessions1 key (getHistory sessions1 key ++ ["Bot: " ++ replyOut])⟩)

/-- The `/process` handler of `routes.py`.  `freshUserId`, `freshOrderId` and
`createdAt` are the database-generated values for rows created during the
call; `nowDate` is `utcnow().date()`; `message` is the request message after
`strip()`.  Early returns: missing message or user id (400, untouched state);
LLM failure (500, the user line already recorded but no bot line).  An
exception escaping `upsert_order_for_user` propagates (`.error`). -/
def process (freshUserId freshOrderId createdAt : Nat) (nowDate : PyDate)
    (message : String) (user_id : Option String) (user_name : Option String)
    (date_in0 : Option String) (llm : LLMOutcome) (st : ProcState) :
    Except PyErr (ProcResp × ProcState) :=
  if message = "" ∨ strTruthy user_id = false then
    .ok (.errorResp "Missing message or user_id" 400, st)
  else
    let uid := user_id.getD ""
    let date_in := default_date_in nowDate date_in0
    let key := uid ++ "_" ++ date_in
    let sessions1 :=
      setHistory st.sessions key (getHistory st.sessions key ++ ["User: " ++ message])
    match llm with
    | .failure => .ok (.reply "Sorry, LLM error" 0 500, ⟨st.users, st.store, sessions1⟩)
    | .unparsable raw =>
      let users2 := (get_or_create_user freshUserId st.users uid user_name).2
      .ok (withBotReply key raw 0 200 users2 st.store sessions1)
    | .parsed p =>
      let reply0 := p.reply.getD ""
      let date_in2 :=
        if (match p.order with | some o => strTruthy o.date | none => false) then
          (match p.order with | some o => o.date.getD "" | none => date_in)
        else if strTruthy p.date then p.date.getD ""
        else date_in
      let gu := get_or_create_user freshUserId st.users uid user_name
      if p.counter = 1 ∧ p.action = some "cancel" then
        let cancel_date := if strTruthy p.date then p.date.getD "" else date_in2
        let cres := cancel_order_by_user_date gu.1.id cancel_date st.store
        let replyOut :=
          match cres.1 with
          | some _ => p.reply.getD ("✅ Order for " ++ cancel_date ++ " canceled.")
          | none => p.reply.getD ("No active order found for " ++ cancel_date ++ ".")
        .ok (withBotReply key replyOut p.counter 200 gu.2 cres.2 sessions1)
      else if p.counter = 1 ∧ p.order ≠ none then
        let o := p.order.getD ⟨none, none, none, none⟩
        let o2 : OrderObj :=
          ⟨(match o.date with | none => some date_in2 | some s => some s),
           some (o.breakfast.getD 0), some (o.lunch.getD 0), some (o.dinner.getD 0)⟩
        match upsert_order_for_user freshOrderId createdAt gu.1.id o2 st.store with
        | .error e => .error e
        | .ok (_, store2) =>
          let replyOut := p.reply.getD "✅ Order recorded."
          .ok (withBotReply key replyOut p.counter 200 gu.2 store2 sessions1)
      else
        .ok (withBotReply key reply0 p.counter 200 gu.2 st.store sessions1)

/-! ## Shared lemmas -/

theorem findAndUpdate_eq_none {α : Type} (p : α → Bool) (f : α → α) :
    ∀ l : List α, findAndUpdate p f l = none ↔ ∀ x ∈ l, p x = false
  | [] => by simp [findAndUpdate]
  | r :: rs => by
    cases hp : p r with
    | true => simp [findAndUpdate, hp]
    | false =>
      cases hrec : findAndUpdate p f rs with
      | none =>
        simp only [findAndUpdate, hp, Bool.false_eq_true, if_false, hrec]
        simp only [List.mem_cons]
        constructor
        · intro _ x hx
          rcases hx with rfl | hx
          · exact hp
          · exact ((findAndUpdate_eq_none p f rs).mp hrec) x hx
        · intro _; trivial
      | some u =>
        simp only [findAndUpdate, hp, Bool.false_eq_true, if_false, hrec]
        constructor
        · intro h; cases h
        · intro h
          have : findAndUpdate p f rs = none :=
            (findAndUpdate_eq_none p f rs).mpr (fun x hx => h x (List.mem_cons_of_mem _ hx))
          rw [this] at hrec; cases hrec

theorem findAndUpdate_eq_some {α : Type} (p : α → Bool) (f : α → α) :
    ∀ (l : List α) (u : α) (l2 : List α), findAndUpdate p f l = some (u, l2) →
      ∃ l₁ r l₂, l = l₁ ++ r :: l₂ ∧ (∀ x ∈ l₁, p x = false) ∧ p r = true ∧
        u = f r ∧ l2 = l₁ ++ f r :: l₂
  | [], u, l2, h => by simp [findAndUpdate] at h
  | r :: rs, u, l2, h => by
    cases hp : p r with
    | true =>
      simp only [findAndUpdate, hp, if_true, Option.some.injEq, Prod.mk.injEq] at h
      exact ⟨[], r, rs, by simp, by simp, hp, by simp_all, by simp [← h.2]⟩
    | false =>
      simp only [findAndUpdate, hp, Bool.false_eq_true, if_false] at h
      cases hrec : findAndUpdate p f rs with
      | none => rw [hrec] at h; cases h
      | some w =>
        rw [hrec] at h
        obtain ⟨u2, rs2⟩ := w
        obtain ⟨l₁, r1, l₂, hsplit, hnone, hpr, hu, hs⟩ :=
          findAndUpdate_eq_some p f rs u2 rs2 hrec
        simp only [Option.some.injEq, Prod.mk.injEq] at h
        refine ⟨r :: l₁, r1, l₂, by simp [hsplit], ?_, hpr, by simp_all, ?_⟩
        · intro x hx
          rcases List.mem_cons.mp hx with rfl | hx
          · exact hp
          · exact hnone x hx
        · simp [← h.2, hs]

theorem findAndUpdate_split {α : Type} (p : α → Bool) (f : α → α) :
    ∀ (l₁ : List α) (r : α) (l₂ : List α), (∀ x ∈ l₁, p x = false) → p r = true →
      findAndUpdate p f (l₁ ++ r :: l₂) = some (f r, l₁ ++ f r :: l₂)
  | [], r, l₂, _, hr => by simp [findAndUpdate, hr]
  | x :: l₁, r, l₂, hnone, hr => by
    have hx : p x = false := hnone x (List.mem_cons_self x l₁)
    have hrec := findAndUpdate_split p f l₁ r l₂
      (fun y hy => hnone y (List.mem_cons_of_mem _ hy)) hr
    simp [findAndUpdate, hx, hrec]

theorem getHistory_setHistory :
    ∀ (s : List (String × List String)) (k : String) (h : List String),
      getHistory (setHistory s k h) k = h
  | [], k, h => by simp [getHistory, setHistory]
  | kv :: rest, k, h => by
    by_cases hk : kv.fst = k
    · simp [getHistory, setHistory, hk]
    · simp [getHistory, setHistory, hk, getHistory_setHistory rest k h]

theorem setHistory_setHistory :
    ∀ (s : List (String × List String)) (k : String) (h1 h2 : List String),
      setHistory (setHistory s k h1) k h2 = setHistory s k h2
  | [], k, h1, h2 => by simp [setHistory]
  | kv :: rest, k, h1, h2 => by
    by_cases hk : kv.fst = k
    · simp [setHistory, hk]
    · simp [setHistory, hk, setHistory_setHistory rest k h1 h2]

/-! ## Claim C4 — breakfast/lunch cutoff -/

/-- C4 counterexample: the claim says breakfast/lunch is allowed exactly when
`now` falls on the day before the target date and is strictly before 21:30.
At 22:00 (79200 s) on the target date itself the code still allows the order,
although `now` is not on the day before the target, refuting the claim. -/
theorem breakfast_lunch_cutoff_claim_false :
    breakfast_lunch_allowed ⟨2025, 11, 19⟩ ⟨⟨2025, 11, 19⟩, 79200⟩ = true ∧
    ¬((⟨2025, 11, 19⟩ : PyDate) = nextDay ⟨2025, 11, 19⟩ ∧
      79200 < breakfast_lunch_cutoff) := by
  decide

/-- C4 (amended): breakfast/lunch for a target date is rejected exactly when
`now` falls on the day before the target (intent `"tomorrow"`) and the
now-time is strictly after 21:30:00; for every other target (the target day
itself, or further out) it is always allowed.  Equivalently: allowed iff
whenever the target is the day after `now`, the now-time is at most 21:30. -/
theorem breakfast_lunch_allowed_iff (target : PyDate) (now : NowInstant) :
    breakfast_lunch_allowed target now = true ↔
      (target = nextDay now.date → now.timeSec ≤ breakfast_lunch_cutoff) := by
  unfold breakfast_lunch_allowed classify_intent
  by_cases h : target = nextDay now.date
  · simp only [h, if_true]
    simp
  · simp only [h, if_false]
    by_cases h2 : target = now.date <;> simp [h2, h]

/-- C4 witness: at 21:29 (77340 s) on the day before the target, breakfast
and lunch are allowed, via the amended characterisation. -/
theorem breakfast_lunch_allowed_iff_witness :
    breakfast_lunch_allowed ⟨2025, 11, 20⟩ ⟨⟨2025, 11, 19⟩, 77340⟩ = true :=
  (breakfast_lunch_allowed_iff ⟨2025, 11, 20⟩ ⟨⟨2025, 11, 19⟩, 77340⟩).mpr
    (fun _ => by decide)

/-! ## Claim C5 — dinner cutoff -/

/-- C5 counterexample: the claim says dinner for a target date equal to
tomorrow is always allowed regardless of the now-instant.  At 13:00 (46800 s)
the code rejects dinner for tomorrow, since the dinner gate compares only the
time of day against 12:30 and never looks at the target date. -/
theorem dinner_cutoff_claim_false :
    dinner_allowed (nextDay ⟨2025, 11, 19⟩) ⟨⟨2025, 11, 19⟩, 46800⟩ = false := by
  decide

/-- C5 (amended): dinner is allowed exactly when the now-time is at most
12:30:00, regardless of the target date — also for a target equal to
tomorrow; at 12:29 it is allowed and at 12:31 rejected. -/
theorem dinner_allowed_iff (target : PyDate) (now : NowInstant) :
    dinner_allowed target now = true ↔ now.timeSec ≤ dinner_cutoff := by
  unfold dinner_allowed
  simp

/-- C5 witness: at 12:29 (44940 s) dinner is allowed, via the amended
characterisation. -/
theorem dinner_allowed_iff_witness :
    dinner_allowed ⟨2025, 11, 19⟩ ⟨⟨2025, 11, 19⟩, 44940⟩ = true :=
  (dinner_allowed_iff ⟨2025, 11, 19⟩ ⟨⟨2025, 11, 19⟩, 44940⟩).mpr (by decide)

/-! ## Claim C9 — cancellation with a malformed date -/

/-- C9: for every date string the ISO parser rejects, cancellation returns
the `None` (NotFound) signal and leaves the store untouched: the
`try/except` around `fromisoformat` makes a malformed date indistinguishable
from "nothing to cancel", and no write happens. -/
theorem cancel_malformed_date_notfound (uid : Nat) (ds : String) (store : List Order)
    (hbad : fromisoformatDate ds = none) :
    cancel_order_by_user_date uid ds store = (none, store) := by
  unfold cancel_order_by_user_date
  rw [hbad]

/-- C9 witness: cancelling with the unparsable string `"not-a-date"` on a
store holding an active order returns `none` and the untouched store. -/
theorem cancel_malformed_date_notfound_witness :
    cancel_order_by_user_date 7 "not-a-date"
      [⟨1, 7, ⟨2025, 11, 20⟩, false, true, false, 70, none, false, 0⟩]
    = (none, [⟨1, 7, ⟨2025, 11, 20⟩, false, true, false, 70, none, false, 0⟩]) :=
  cancel_malformed_date_notfound 7 "not-a-date"
    [⟨1, 7, ⟨2025, 11, 20⟩, false, true, false, 70, none, false, 0⟩] rfl

/-! ## Claim C1 — upsert is an overwrite, not a merge -/

/-- C1 counterexample: upserting `{breakfast:1}` (lunch and dinner absent)
onto a date that already has `lunch=1` yields `breakfast=true, lunch=false,
total=40`, not the claimed merge `lunch=true, total = 40 + 70`: the engine
replaces the whole flag set, reading absent fields as false. -/
theorem upsert_merge_claim_false :
    upsert_order_for_user 1 0 7 ⟨some "2025-11-20", none, some 1, none⟩ []
      = Except.ok (⟨1, 7, ⟨2025, 11, 20⟩, false, true, false, 70, none, false, 0⟩,
          [⟨1, 7, ⟨2025, 11, 20⟩, false, true, false, 70, none, false, 0⟩]) ∧
    upsert_order_for_user 2 0 7 ⟨some "2025-11-20", some 1, none, none⟩
        [⟨1, 7, ⟨2025, 11, 20⟩, false, true, false, 70, none, false, 0⟩]
      = Except.ok (⟨1, 7, ⟨2025, 11, 20⟩, true, false, false, 40, none, false, 0⟩,
          [⟨1, 7, ⟨2025, 11, 20⟩, true, false, false, 40, none, false, 0⟩]) ∧
    (40 : Nat) ≠ MEAL_PRICES "breakfast" + MEAL_PRICES "lunch" := by
  exact ⟨rfl, rfl, by decide⟩

/-- C1 (amended): every successful upsert — creating or updating — sets all
three stored meal flags to the truthiness of the corresponding request
fields, an absent field counting as false, recomputes the total from the
request object alone, and clears `canceled`; flags absent from the request
are overwritten to false rather than preserved. -/
theorem upsert_overwrites_flags (fid ca uid : Nat) (o : OrderObj)
    (store s1 : List Order) (saved : Order)
    (hok : upsert_order_for_user fid ca uid o store = Except.ok (saved, s1)) :
    saved.breakfast = truthy o.breakfast ∧ saved.lunch = truthy o.lunch ∧
    saved.dinner = truthy o.dinner ∧
    saved.total_amount = calculate_total_from_order_obj o ∧
    saved.canceled = false := by
  cases hd : o.date with
  | none => simp [upsert_order_for_user, hd] at hok
  | some ds =>
    by_cases he : ds = ""
    · simp [upsert_order_for_user, hd, he] at hok
    · cases hp : fromisoformatDate ds with
      | none => simp [upsert_order_for_user, hd, he, hp] at hok
      | some od =>
        simp only [upsert_order_for_user, hd, he, if_false, hp] at hok
        cases hf : findAndUpdate (matches_user_date uid od)
            (updateOrderFields (truthy o.breakfast) (truthy o.lunch) (truthy o.dinner)
              (calculate_total_from_order_obj o)) store with
        | none =>
          rw [hf] at hok
          simp only [Except.ok.injEq, Prod.mk.injEq] at hok
          obtain ⟨h1, _⟩ := hok
          subst h1
          exact ⟨rfl, rfl, rfl, rfl, rfl⟩
        | some w =>
          rw [hf] at hok
          simp only [Except.ok.injEq, Prod.mk.injEq] at hok
          obtain ⟨h1, _⟩ := hok
          obtain ⟨l₁, r, l₂, _, _, _, hu, _⟩ :=
            findAndUpdate_eq_some _ _ store w.1 w.2 (by rw [hf])
          subst h1
          rw [hu]
          exact ⟨rfl, rfl, rfl, rfl, rfl⟩

/-- C1 witness: a concrete update of an existing lunch-only row by a
breakfast-only request. -/
theorem upsert_overwrites_flags_witness :
    (⟨1, 7, ⟨2025, 11, 20⟩, true, false, false, 40, none, false, 0⟩ : Order).breakfast =
      truthy (OrderObj.mk (some "2025-11-20") (some 1) none none).breakfast ∧
    (⟨1, 7, ⟨2025, 11, 20⟩, true, false, false, 40, none, false, 0⟩ : Order).lunch =
      truthy (OrderObj.mk (some "2025-11-20") (some 1) none none).lunch ∧
    (⟨1, 7, ⟨2025, 11, 20⟩, true, false, false, 40, none, false, 0⟩ : Order).dinner =
      truthy (OrderObj.mk (some "2025-11-20") (some 1) none none).dinner ∧
    (⟨1, 7, ⟨2025, 11, 20⟩, true, false, false, 40, none, false, 0⟩ : Order).total_amount =
      calculate_total_from_order_obj (OrderObj.mk (some "2025-11-20") (some 1) none none) ∧
    (⟨1, 7, ⟨2025, 11, 20⟩, true, false, false, 40, none, false, 0⟩ : Order).canceled = false :=
  upsert_overwrites_flags 2 0 7 ⟨some "2025-11-20", some 1, none, none⟩
    [⟨1, 7, ⟨2025, 11, 20⟩, false, true, false, 70, none, false, 0⟩]
    [⟨1, 7, ⟨2025, 11, 20⟩, true, false, false, 40, none, false, 0⟩]
    ⟨1, 7, ⟨2025, 11, 20⟩, true, false, false, 40, none, false, 0⟩ rfl

/-! ## Claim C10 — frame property of the existing-row upsert -/

/-- C10: an upsert that hits an existing row replaces that one row by a row
agreeing with it on `id`, `user_id`, `order_date`, `remarks` and
`created_at` — only the meal flags, the total and the canceled flag are
assigned — and every other row of the store is untouched. -/
theorem upsert_existing_frame (fid ca uid : Nat) (o : OrderObj) (ds : String)
    (od : PyDate) (store s1 : List Order) (saved : Order)
    (hds : o.date = some ds) (hne : ds ≠ "") (hp : fromisoformatDate ds = some od)
    (hex : ∃ x ∈ store, matches_user_date uid od x = true)
    (hok : upsert_order_for_user fid ca uid o store = Except.ok (saved, s1)) :
    ∃ l₁ rOld l₂, store = l₁ ++ rOld :: l₂ ∧ s1 = l₁ ++ saved :: l₂ ∧
      saved.id = rOld.id ∧ saved.user_id = rOld.user_id ∧
      saved.order_date = rOld.order_date ∧ saved.remarks = rOld.remarks ∧
      saved.created_at = rOld.created_at := by
  simp only [upsert_order_for_user, hds, hne, if_false, hp] at hok
  cases hf : findAndUpdate (matches_user_date uid od)
      (updateOrderFields (truthy o.breakfast) (truthy o.lunch) (truthy o.dinner)
        (calculate_total_from_order_obj o)) store with
  | none =>
    obtain ⟨x, hx, hmx⟩ := hex
    have hnm := (findAndUpdate_eq_none _ _ store).mp hf x hx
    rw [hmx] at hnm
    cases hnm
  | some w =>
    rw [hf] at hok
    simp only [Except.ok.injEq, Prod.mk.injEq] at hok
    obtain ⟨h1, h2⟩ := hok
    obtain ⟨l₁, r, l₂, hsplit, _, _, hu, hs⟩ :=
      findAndUpdate_eq_some _ _ store w.1 w.2 (by rw [hf])
    subst h1
    refine ⟨l₁, r, l₂, hsplit, ?_, ?_, ?_, ?_, ?_, ?_⟩
    · rw [← h2, hs, hu]
    · rw [hu]; rfl
    · rw [hu]; rfl
    · rw [hu]; rfl
    · rw [hu]; rfl
    · rw [hu]; rfl

/-- C10 witness: updating the single existing row of a one-row store. -/
theorem upsert_existing_frame_witness :
    ∃ l₁ rOld l₂,
      [(⟨1, 7, ⟨2025, 11, 20⟩, false, true, false, 70, none, false, 0⟩ : Order)] =
        l₁ ++ rOld :: l₂ ∧
      [(⟨1, 7, ⟨2025, 11, 20⟩, true, false, false, 40, none, false, 0⟩ : Order)] =
        l₁ ++ (⟨1, 7, ⟨2025, 11, 20⟩, true, false, false, 40, none, false, 0⟩ : Order) :: l₂ ∧
      (⟨1, 7, ⟨2025, 11, 20⟩, true, false, false, 40, none, false, 0⟩ : Order).id = rOld.id ∧
      (⟨1, 7, ⟨2025, 11, 20⟩, true, false, false, 40, none, false, 0⟩ : Order).user_id = rOld.user_id ∧
      (⟨1, 7, ⟨2025, 11, 20⟩, true, false, false, 40, none, false, 0⟩ : Order).order_date = rOld.order_date ∧
      (⟨1, 7, ⟨2025, 11, 20⟩, true, false, false, 40, none, false, 0⟩ : Order).remarks = rOld.remarks ∧
      (⟨1, 7, ⟨2025, 11, 20⟩, true, false, false, 40, none, false, 0⟩ : Order).created_at = rOld.created_at :=
  upsert_existing_frame 9 5 7 ⟨some "2025-11-20", some 1, none, none⟩ "2025-11-20"
    ⟨2025, 11, 20⟩
    [⟨1, 7, ⟨2025, 11, 20⟩, false, true, false, 70, none, false, 0⟩]
    [⟨1, 7, ⟨2025, 11, 20⟩, true, false, false, 40, none, false, 0⟩]
    ⟨1, 7, ⟨2025, 11, 20⟩, true, false, false, 40, none, false, 0⟩
    rfl (by decide) rfl
    ⟨⟨1, 7, ⟨2025, 11, 20⟩, false, true, false, 70, none, false, 0⟩, by decide, by decide⟩
    rfl

/-! ## Claim C7 — cancellation of a date with no active order -/

/-- C7: provided the store holds at most one active row for the (user, date)
pair — the at-most-one-record shape the engines maintain — cancelling a date
with no active row (absent, or already canceled) returns the NotFound signal
`none` while leaving the store untouched, and a second cancel immediately
after a successful one also returns NotFound with the store unchanged. -/
theorem cancel_nothing_to_cancel (uid : Nat) (ds : String) (od : PyDate)
    (store s1 : List Order) (r1 : Order)
    (hparse : fromisoformatDate ds = some od)
    (hU : (store.filter (is_active_for uid od)).length ≤ 1) :
    ((∀ r ∈ store, is_active_for uid od r = false) →
      cancel_order_by_user_date uid ds store = (none, store)) ∧
    (cancel_order_by_user_date uid ds store = (some r1, s1) →
      cancel_order_by_user_date uid ds s1 = (none, s1)) := by
  constructor
  · intro hno
    unfold cancel_order_by_user_date
    simp only [hparse, (findAndUpdate_eq_none _ _ store).mpr hno]
  · intro hc
    unfold cancel_order_by_user_date at hc ⊢
    simp only [hparse] at hc ⊢
    cases hf : findAndUpdate (is_active_for uid od)
        (fun r => { r with canceled := true }) store with
    | none => rw [hf] at hc; simp at hc
    | some w =>
      rw [hf] at hc
      simp only [Prod.mk.injEq, Option.some.injEq] at hc
      obtain ⟨_, hc2⟩ := hc
      obtain ⟨l₁, r, l₂, hsplit, hnone, hr, hu, hs⟩ :=
        findAndUpdate_eq_some _ _ store w.1 w.2 (by rw [hf])
      have hl1 : l₁.filter (is_active_for uid od) = [] :=
        List.filter_eq_nil_iff.mpr (fun a ha => by simp [hnone a ha])
      have hflt : store.filter (is_active_for uid od) =
          r :: l₂.filter (is_active_for uid od) := by
        rw [hsplit, List.filter_append, hl1, List.nil_append,
          List.filter_cons_of_pos hr]
      rw [hflt] at hU
      have hl2 : ∀ x ∈ l₂, is_active_for uid od x = false := by
        have hz : (l₂.filter (is_active_for uid od)).length = 0 := by
          simp only [List.length_cons] at hU
          omega
        intro x hx
        have hmem := List.filter_eq_nil_iff.mp (List.length_eq_zero.mp hz) x hx
        simpa using hmem
      have hall : ∀ x ∈ s1, is_active_for uid od x = false := by
        subst hc2
        rw [hs]
        intro x hx
        rcases List.mem_append.mp hx with hx1 | hx2
        · exact hnone x hx1
        · rcases List.mem_cons.mp hx2 with rfl | hx3
          · simp [is_active_for]
          · exact hl2 x hx3
      rw [(findAndUpdate_eq_none _ _ s1).mpr hall]

/-- C7 witness: cancelling a date whose only row is already canceled returns
NotFound and writes nothing. -/
theorem cancel_nothing_to_cancel_witness :
    cancel_order_by_user_date 7 "2025-11-20"
      [⟨1, 7, ⟨2025, 11, 20⟩, false, true, false, 70, none, true, 0⟩]
    = (none, [⟨1, 7, ⟨2025, 11, 20⟩, false, true, false, 70, none, true, 0⟩]) :=
  (cancel_nothing_to_cancel 7 "2025-11-20" ⟨2025, 11, 20⟩
    [⟨1, 7, ⟨2025, 11, 20⟩, false, true, false, 70, none, true, 0⟩]
    [⟨1, 7, ⟨2025, 11, 20⟩, false, true, false, 70, none, true, 0⟩]
    ⟨1, 7, ⟨2025, 11, 20⟩, false, true, false, 70, none, true, 0⟩
    rfl (by decide)).1 (by decide)

/-! ## Claim C2 — stored total always matches the stored flags -/

/-- C2: writes keep every row satisfying the price invariant.  Starting from
a store in which every row has `total == priceOf(breakfast) +
priceOf(lunch) + priceOf(dinner)` (prices 40/70/40), a successful upsert
followed by a cancellation leaves every row of both resulting stores
satisfying the invariant: the upsert derives the stored flags and the stored
total from the same request truthiness, and the cancellation only toggles
`canceled`. -/
theorem writes_preserve_total_invariant (fid ca uid uid2 : Nat) (o : OrderObj)
    (ds : String) (store s1 s2 : List Order) (saved : Order) (co : Option Order)
    (hinv : ∀ r ∈ store, orderInvariant r)
    (hup : upsert_order_for_user fid ca uid o store = Except.ok (saved, s1))
    (hcan : cancel_order_by_user_date uid2 ds s1 = (co, s2)) :
    (∀ r ∈ s1, orderInvariant r) ∧ (∀ r ∈ s2, orderInvariant r) := by
  have hinv1 : ∀ r ∈ s1, orderInvariant r := by
    cases hd : o.date with
    | none => simp [upsert_order_for_user, hd] at hup
    | some ds2 =>
      by_cases he : ds2 = ""
      · simp [upsert_order_for_user, hd, he] at hup
      · cases hp : fromisoformatDate ds2 with
        | none => simp [upsert_order_for_user, hd, he, hp] at hup
        | some od =>
          simp only [upsert_order_for_user, hd, he, if_false, hp] at hup
          cases hf : findAndUpdate (matches_user_date uid od)
              (updateOrderFields (truthy o.breakfast) (truthy o.lunch) (truthy o.dinner)
                (calculate_total_from_order_obj o)) store with
          | none =>
            rw [hf] at hup
            simp only [Except.ok.injEq, Prod.mk.injEq] at hup
            obtain ⟨_, h2⟩ := hup
            intro r hr
            rw [← h2] at hr
            rcases List.mem_append.mp hr with hr1 | hr2
            · exact hinv r hr1
            · rcases List.mem_cons.mp hr2 with rfl | hx
              · exact rfl
              · simp at hx
          | some w =>
            rw [hf] at hup
            simp only [Except.ok.injEq, Prod.mk.injEq] at hup
            obtain ⟨_, h2⟩ := hup
            obtain ⟨l₁, rr, l₂, hsplit, _, _, _, hs⟩ :=
              findAndUpdate_eq_some _ _ store w.1 w.2 (by rw [hf])
            intro r hr
            rw [← h2, hs] at hr
            rcases List.mem_append.mp hr with hr1 | hr2
            · exact hinv r (by rw [hsplit]; simp [hr1])
            · rcases List.mem_cons.mp hr2 with rfl | hx
              · exact rfl
              · exact hinv r (by rw [hsplit]; simp [hx])
  refine ⟨hinv1, ?_⟩
  cases hp2 : fromisoformatDate ds with
  | none =>
    simp only [cancel_order_by_user_date, hp2, Prod.mk.injEq] at hcan
    rw [← hcan.2]
    exact hinv1
  | some od2 =>
    simp only [cancel_order_by_user_date, hp2] at hcan
    cases hf2 : findAndUpdate (is_active_for uid2 od2)
        (fun r => { r with canceled := true }) s1 with
    | none =>
      rw [hf2] at hcan
      simp only [Prod.mk.injEq] at hcan
      rw [← hcan.2]
      exact hinv1
    | some w =>
      rw [hf2] at hcan
      simp only [Prod.mk.injEq] at hcan
      obtain ⟨l₁, rr, l₂, hsplit, _, _, _, hs⟩ :=
        findAndUpdate_eq_some _ _ s1 w.1 w.2 (by rw [hf2])
      intro r hr
      rw [← hcan.2, hs] at hr
      rcases List.mem_append.mp hr with hr1 | hr2
      · exact hinv1 r (by rw [hsplit]; simp [hr1])
      · rcases List.mem_cons.mp hr2 with rfl | hx
        · exact hinv1 rr (by rw [hsplit]; simp)
        · exact hinv1 r (by rw [hsplit]; simp [hx])

/-- C2 witness: a concrete upsert onto the empty store followed by a
cancellation, with both resulting stores invariant. -/
theorem writes_preserve_total_invariant_witness :
    (∀ r ∈ [(⟨1, 7, ⟨2025, 11, 20⟩, true, true, false, 110, none, false, 0⟩ : Order)],
       orderInvariant r) ∧
    (∀ r ∈ [(⟨1, 7, ⟨2025, 11, 20⟩, true, true, false, 110, none, true, 0⟩ : Order)],
       orderInvariant r) :=
  writes_preserve_total_invariant 1 0 7 7 ⟨some "2025-11-20", some 1, some 1, none⟩
    "2025-11-20" []
    [⟨1, 7, ⟨2025, 11, 20⟩, true, true, false, 110, none, false, 0⟩]
    [⟨1, 7, ⟨2025, 11, 20⟩, true, true, false, 110, none, true, 0⟩]
    ⟨1, 7, ⟨2025, 11, 20⟩, true, true, false, 110, none, false, 0⟩
    (some ⟨1, 7, ⟨2025, 11, 20⟩, true, true, false, 110, none, true, 0⟩)
    (by simp) rfl rfl

/-! ## Claim C3 — idempotence and at most one affected row -/

/-- C3: running the same upsert request twice in a row returns the same row
and the same final store as running it once, and the single run either
appends exactly one new row or replaces exactly one existing row, leaving
every other row in place. -/
theorem upsert_idempotent_one_row (fid1 ca1 fid2 ca2 uid : Nat) (o : OrderObj)
    (store s1 s2 : List Order) (r1 r2 : Order)
    (h1 : upsert_order_for_user fid1 ca1 uid o store = Except.ok (r1, s1))
    (h2 : upsert_order_for_user fid2 ca2 uid o s1 = Except.ok (r2, s2)) :
    r2 = r1 ∧ s2 = s1 ∧
    (s1 = store ++ [r1] ∨
      ∃ l₁ rOld l₂, store = l₁ ++ rOld :: l₂ ∧ s1 = l₁ ++ r1 :: l₂) := by
  cases hd : o.date with
  | none => simp [upsert_order_for_user, hd] at h1
  | some ds =>
    by_cases he : ds = ""
    · simp [upsert_order_for_user, hd, he] at h1
    · cases hp : fromisoformatDate ds with
      | none => simp [upsert_order_for_user, hd, he, hp] at h1
      | some od =>
        simp only [upsert_order_for_user, hd, he, if_false, hp] at h1 h2
        cases hf : findAndUpdate (matches_user_date uid od)
            (updateOrderFields (truthy o.breakfast) (truthy o.lunch) (truthy o.dinner)
              (calculate_total_from_order_obj o)) store with
        | some w =>
          rw [hf] at h1
          simp only [Except.ok.injEq, Prod.mk.injEq] at h1
          obtain ⟨h1a, h1b⟩ := h1
          obtain ⟨l₁, r, l₂, hsplit, hnone, hr, hu, hs⟩ :=
            findAndUpdate_eq_some _ _ store w.1 w.2 (by rw [hf])
          have hmfr : matches_user_date uid od
              (updateOrderFields (truthy o.breakfast) (truthy o.lunch) (truthy o.dinner)
                (calculate_total_from_order_obj o) r) = true := hr
          have hsecond : findAndUpdate (matches_user_date uid od)
              (updateOrderFields (truthy o.breakfast) (truthy o.lunch) (truthy o.dinner)
                (calculate_total_from_order_obj o)) s1 =
              some (updateOrderFields (truthy o.breakfast) (truthy o.lunch) (truthy o.dinner)
                  (calculate_total_from_order_obj o) r,
                l₁ ++ updateOrderFields (truthy o.breakfast) (truthy o.lunch) (truthy o.dinner)
                  (calculate_total_from_order_obj o) r :: l₂) := by
            rw [← h1b, hs]
            exact findAndUpdate_split _ _ l₁ _ l₂ hnone hmfr
          rw [hsecond] at h2
          simp only [Except.ok.injEq, Prod.mk.injEq] at h2
          obtain ⟨h2a, h2b⟩ := h2
          refine ⟨?_, ?_, Or.inr ⟨l₁, r, l₂, hsplit, ?_⟩⟩
          · rw [← h2a, ← h1a, hu]
          · rw [← h2b, ← h1b, hs]
          · rw [← h1a, hu, ← h1b, hs]
        | none =>
          rw [hf] at h1
          simp only [Except.ok.injEq, Prod.mk.injEq] at h1
          obtain ⟨h1a, h1b⟩ := h1
          have hnone : ∀ x ∈ store, matches_user_date uid od x = false :=
            (findAndUpdate_eq_none _ _ store).mp hf
          have hmnew : matches_user_date uid od
              (⟨fid1, uid, od, truthy o.breakfast, truthy o.lunch, truthy o.dinner,
                calculate_total_from_order_obj o, none, false, ca1⟩ : Order) = true := by
            simp [matches_user_date]
          have hsecond : findAndUpdate (matches_user_date uid od)
              (updateOrderFields (truthy o.breakfast) (truthy o.lunch) (truthy o.dinner)
                (calculate_total_from_order_obj o)) s1 =
              some (updateOrderFields (truthy o.breakfast) (truthy o.lunch) (truthy o.dinner)
                  (calculate_total_from_order_obj o)
                  ⟨fid1, uid, od, truthy o.breakfast, truthy o.lunch, truthy o.dinner,
                    calculate_total_from_order_obj o, none, false, ca1⟩,
                store ++ updateOrderFields (truthy o.breakfast) (truthy o.lunch)
                    (truthy o.dinner) (calculate_total_from_order_obj o)
                    ⟨fid1, uid, od, truthy o.breakfast, truthy o.lunch, truthy o.dinner,
                      calculate_total_from_order_obj o, none, false, ca1⟩ :: []) := by
            rw [← h1b]
            exact findAndUpdate_split _ _ store _ [] hnone hmnew
          rw [hsecond] at h2
          simp only [Except.ok.injEq, Prod.mk.injEq] at h2
          obtain ⟨h2a, h2b⟩ := h2
          refine ⟨?_, ?_, Or.inl ?_⟩
          · rw [← h2a, ← h1a]; rfl
          · rw [← h2b, ← h1b]; rfl
          · rw [← h1a]; exact h1b.symm

/-- C3 witness: the same breakfast+lunch request applied twice to the empty
store, with distinct database-generated ids offered to each call. -/
theorem upsert_idempotent_one_row_witness :
    (⟨1, 7, ⟨2025, 11, 20⟩, true, true, false, 110, none, false, 3⟩ : Order) =
      ⟨1, 7, ⟨2025, 11, 20⟩, true, true, false, 110, none, false, 3⟩ ∧
    [(⟨1, 7, ⟨2025, 11, 20⟩, true, true, false, 110, none, false, 3⟩ : Order)] =
      [⟨1, 7, ⟨2025, 11, 20⟩, true, true, false, 110, none, false, 3⟩] ∧
    ([(⟨1, 7, ⟨2025, 11, 20⟩, true, true, false, 110, none, false, 3⟩ : Order)] =
        [] ++ [⟨1, 7, ⟨2025, 11, 20⟩, true, true, false, 110, none, false, 3⟩] ∨
      ∃ l₁ rOld l₂, ([] : List Order) = l₁ ++ rOld :: l₂ ∧
        [(⟨1, 7, ⟨2025, 11, 20⟩, true, true, false, 110, none, false, 3⟩ : Order)] =
          l₁ ++ (⟨1, 7, ⟨2025, 11, 20⟩, true, true, false, 110, none, false, 3⟩ : Order) :: l₂) :=
  upsert_idempotent_one_row 1 3 2 4 7 ⟨some "2025-11-20", some 1, some 1, none⟩
    [] [⟨1, 7, ⟨2025, 11, 20⟩, true, true, false, 110, none, false, 3⟩]
    [⟨1, 7, ⟨2025, 11, 20⟩, true, true, false, 110, none, false, 3⟩]
    ⟨1, 7, ⟨2025, 11, 20⟩, true, true, false, 110, none, false, 3⟩
    ⟨1, 7, ⟨2025, 11, 20⟩, true, true, false, 110, none, false, 3⟩
    rfl rfl

/-! ## Claims C6 and C8 — orchestrator behaviour -/

theorem withBotReply_after_user (key r m : String) (c : Int) (s : Nat)
    (us : List UserRec) (so : List Order) (sess : List (String × List String)) :
    (withBotReply key r c s us so
        (setHistory sess key (getHistory sess key ++ ["User: " ++ m]))).2.sessions
      = setHistory sess key (getHistory sess key ++ ["User: " ++ m, "Bot: " ++ r]) := by
  unfold withBotReply
  rw [getHistory_setHistory, setHistory_setHistory, List.append_assoc]
  rfl

/-- C6 counterexample: at 22:00 (79200 s) on 2025-11-19 the cutoff evaluator
rejects breakfast for 2025-11-20, yet a `NewOrUpdateOrder` message carrying
`{breakfast:1}` for that date drives `/process` to mutate the order store
(one row is created), because the handler never consults any cutoff logic. -/
theorem orchestrator_cutoff_claim_false :
    breakfast_lunch_allowed ⟨2025, 11, 20⟩ ⟨⟨2025, 11, 19⟩, 79200⟩ = false ∧
    process 1 1 0 ⟨2025, 11, 19⟩ "breakfast tomorrow" (some "u1") (some "A") none
      (LLMOutcome.parsed ⟨some "ok", 1, some ⟨some "2025-11-20", some 1, some 0, some 0⟩,
        none, none⟩)
      ⟨[], [], []⟩
    = Except.ok (ProcResp.reply "ok" 1 200,
        ⟨[⟨1, "u1", "A"⟩],
         [⟨1, 1, ⟨2025, 11, 20⟩, true, false, false, 40, none, false, 0⟩],
         [("u1_2025-11-20", ["User: breakfast tomorrow", "Bot: ok"])]⟩) :=
  ⟨rfl, rfl⟩

/-- C6 (amended): the orchestrator performs no cutoff gating at all.  For
every message that passes validation and parses into a `NewOrUpdateOrder`
intent (counter 1, no cancel action, an order object with a date string),
the resulting order store is exactly the store the ungated upsert engine
produces — also when a requested-true meal is rejected by the cutoff
evaluator for the target date at the current instant. -/
theorem orchestrator_upserts_ungated (fu fo ca : Nat) (nd : PyDate) (now : NowInstant)
    (msg uid : String) (uname di : Option String) (p : ParsedResp) (o : OrderObj)
    (ds : String) (target : PyDate) (st : ProcState)
    (hmsg : msg ≠ "") (huid : uid ≠ "")
    (hc : p.counter = 1) (ha : p.action ≠ some "cancel") (ho : p.order = some o)
    (hds : o.date = some ds) (hparse : fromisoformatDate ds = some target)
    (hreq : truthy o.breakfast = true)
    (hrej : breakfast_lunch_allowed target now = false) :
    Except.map (fun r => r.2.store)
        (process fu fo ca nd msg (some uid) uname di (LLMOutcome.parsed p) st)
      = Except.map (fun r => r.2)
        (upsert_order_for_user fo ca (get_or_create_user fu st.users uid uname).1.id
          ⟨some ds, some (o.breakfast.getD 0), some (o.lunch.getD 0), some (o.dinner.getD 0)⟩
          st.store) := by
  unfold process
  rw [if_neg (by simp [hmsg, strTruthy, huid])]
  simp only [hc, ha, ho, hds]
  rw [if_neg (by simp [ha]), if_pos (by simp [ho, hc])]
  simp only [ho, Option.getD_some, hds]
  cases hu : upsert_order_for_user fo ca (get_or_create_user fu st.users uid uname).1.id
      ⟨some ds, some (o.breakfast.getD 0), some (o.lunch.getD 0), some (o.dinner.getD 0)⟩
      st.store with
  | error e => simp [hu, Except.map]
  | ok w => simp [hu, Except.map, withBotReply]

/-- C6 witness: the concrete rejected-breakfast scenario, with the resulting
store equal to the ungated upsert's store. -/
theorem orchestrator_upserts_ungated_witness :
    Except.map (fun r => r.2.store)
        (process 1 1 0 ⟨2025, 11, 19⟩ "breakfast tomorrow" (some "u1") (some "A") none
          (LLMOutcome.parsed ⟨some "ok", 1, some ⟨some "2025-11-20", some 1, some 0, some 0⟩,
            none, none⟩)
          ⟨[], [], []⟩)
      = Except.map (fun r => r.2)
        (upsert_order_for_user 1 0 (get_or_create_user 1 [] "u1" (some "A")).1.id
          ⟨some "2025-11-20", some 1, some 0, some 0⟩ []) :=
  orchestrator_upserts_ungated 1 1 0 ⟨2025, 11, 19⟩ ⟨⟨2025, 11, 19⟩, 79200⟩
    "breakfast tomorrow" "u1" (some "A") none
    ⟨some "ok", 1, some ⟨some "2025-11-20", some 1, some 0, some 0⟩, none, none⟩
    ⟨some "2025-11-20", some 1, some 0, some 0⟩ "2025-11-20" ⟨2025, 11, 20⟩
    ⟨[], [], []⟩
    (by decide) (by decide) rfl (by decide) rfl rfl rfl rfl rfl

/-- C8 counterexample: when the LLM call raises, `/process` answers with the
reply "Sorry, LLM error" but returns before the bot-reply append: the session
history for the resolved key holds only the user line, so the produced reply
was never recorded — refuting the claim that every terminal path, including
intent-extraction failure, appends the reply to the session store. -/
theorem orchestrator_reply_logged_claim_false :
    process 1 1 0 ⟨2025, 11, 19⟩ "hello" (some "u1") none none LLMOutcome.failure
      ⟨[], [], []⟩
    = Except.ok (ProcResp.reply "Sorry, LLM error" 0 500,
        ⟨[], [], [("u1_2025-11-20", ["User: hello"])]⟩) ∧
    ¬ ("Bot: Sorry, LLM error" ∈
        getHistory [("u1_2025-11-20", ["User: hello"])] "u1_2025-11-20") :=
  ⟨rfl, by decide⟩

/-- C8 (amended): whenever the message and user id pass validation, the LLM
call itself does not raise, and the handler returns a response rather than
propagating an upsert exception, the orchestrator produces a reply and
appends both the user line and that reply under the session key formed from
the user id and the inbound (pre-resolution) date; on the LLM-failure path,
by contrast, a reply is produced but not recorded. -/
theorem orchestrator_logs_reply_after_llm (fu fo ca : Nat) (nd : PyDate)
    (msg uid : String) (uname di : Option String) (llm : LLMOutcome)
    (st : ProcState) (resp : ProcResp) (st2 : ProcState)
    (hmsg : msg ≠ "") (huid : uid ≠ "") (hllm : llm ≠ LLMOutcome.failure)
    (hok : process fu fo ca nd msg (some uid) uname di llm st = Except.ok (resp, st2)) :
    ∃ r c s, resp = ProcResp.reply r c s ∧
      st2.sessions = setHistory st.sessions (uid ++ "_" ++ default_date_in nd di)
        (getHistory st.sessions (uid ++ "_" ++ default_date_in nd di)
          ++ ["User: " ++ msg, "Bot: " ++ r]) := by
  unfold process at hok
  rw [if_neg (by simp [hmsg, strTruthy, huid])] at hok
  cases llm with
  | failure => exact absurd rfl hllm
  | unparsable raw =>
    simp only [Except.ok.injEq, withBotReply, Prod.mk.injEq] at hok
    obtain ⟨h1, h2⟩ := hok
    subst h1
    subst h2
    refine ⟨raw, 0, 200, rfl, ?_⟩
    simp only [Option.getD_some, getHistory_setHistory, setHistory_setHistory,
      List.append_assoc, List.cons_append, List.nil_append]
  | parsed p =>
    dsimp only at hok
    split at hok
    · simp only [Except.ok.injEq, withBotReply, Prod.mk.injEq] at hok
      obtain ⟨h1, h2⟩ := hok
      subst h1
      subst h2
      refine ⟨_, _, _, rfl, ?_⟩
      simp only [Option.getD_some, getHistory_setHistory, setHistory_setHistory,
        List.append_assoc, List.cons_append, List.nil_append]
    · split at hok
      · split at hok
        · cases hok
        · simp only [Except.ok.injEq, withBotReply, Prod.mk.injEq] at hok
          obtain ⟨h1, h2⟩ := hok
          subst h1
          subst h2
          refine ⟨_, _, _, rfl, ?_⟩
          simp only [Option.getD_some, getHistory_setHistory, setHistory_setHistory,
            List.append_assoc, List.cons_append, List.nil_append]
      · simp only [Except.ok.injEq, withBotReply, Prod.mk.injEq] at hok
        obtain ⟨h1, h2⟩ := hok
        subst h1
        subst h2
        refine ⟨_, _, _, rfl, ?_⟩
        simp only [Option.getD_some, getHistory_setHistory, setHistory_setHistory,
          List.append_assoc, List.cons_append, List.nil_append]

/-- C8 witness: a message whose LLM output is not JSON: the raw text is the
reply and both lines land in the session history. -/
theorem orchestrator_logs_reply_after_llm_witness :
    ∃ r c s, ProcResp.reply "hi" 0 200 = ProcResp.reply r c s ∧
      (ProcState.mk [⟨1, "u1", "Unknown"⟩] []
          [("u1_2025-11-20", ["User: hello", "Bot: hi"])]).sessions
        = setHistory [] ("u1" ++ "_" ++ default_date_in ⟨2025, 11, 19⟩ none)
            (getHistory [] ("u1" ++ "_" ++ default_date_in ⟨2025, 11, 19⟩ none)
              ++ ["User: " ++ "hello", "Bot: " ++ r]) :=
  orchestrator_logs_reply_after_llm 1 1 0 ⟨2025, 11, 19⟩ "hello" "u1" none none
    (LLMOutcome.unparsable "hi") ⟨[], [], []⟩
    (ProcResp.reply "hi" 0 200)
    (ProcState.mk [⟨1, "u1", "Unknown"⟩] []
      [("u1_2025-11-20", ["User: hello", "Bot: hi"])])
    (by decide) (by decide) (by simp) rfl

end PG
